import Mathlib

/-
Verification of the wisdom_ui backend search engine.

This file is a shallow embedding in Lean 4 of the Python services of the
wisdom_ui repository (app/services/search_service.py, permutations.py,
pagination.py), together with theorems settling the specification claims
about them.

Modeling conventions, used throughout:
- JSON scalar values that flow through Python as dynamically typed objects
  are modeled by the inductive type PyVal (strings, integers, booleans and
  the Python None object).  Floats do not occur in the data model and are
  not modeled.
- Python dicts with string keys are modeled as association lists
  (List (String × V)) read through List.lookup; keys are unique in every
  dict the code builds, so lookup (first match) agrees with dict access.
  Count dicts are built with an update helper mirroring dict assignment.
- A Python value of None stored under a key is indistinguishable from an
  absent key for every read the code performs on metadata dicts via .get,
  so metadata fields use Option types where none covers both.  Record
  field values, where the code distinguishes a present None (str(None) is
  the string None) from a missing key (default empty string), keep an
  explicit PyVal.vNone constructor.
- Python truthiness is modeled explicitly where the code branches on it
  (empty strings, empty lists and None are falsy).
- str.lower is modeled by mapping Char.toLower over the characters; this
  agrees with Python on the ASCII data the repository stores.
- random latency simulation (time.sleep) has no effect on any returned
  value and is not modeled.
-/

namespace Wisdom

/-- Dynamically typed scalar value as it appears in a JSON record. -/
inductive PyVal where
  | vNone
  | vStr (s : String)
  | vInt (n : Int)
  | vBool (b : Bool)
deriving DecidableEq, Repr

/-- Python str() applied to a scalar value. -/
def pyStr : PyVal → String
  | .vNone => "None"
  | .vStr s => s
  | .vInt n => toString n
  | .vBool b => if b then "True" else "False"

/-- Python truthiness of a scalar value. -/
def PyVal.truthy : PyVal → Bool
  | .vNone => false
  | .vStr s => s ≠ ""
  | .vInt n => n ≠ 0
  | .vBool b => b

/-- Python str.lower (ASCII). -/
def pyLower (s : String) : String := ⟨s.data.map Char.toLower⟩

/-- Python substring membership on character lists: needle occurs inside hay. -/
def listHasSub (hay needle : List Char) : Bool :=
  needle.isPrefixOf hay ||
    match hay with
    | [] => false
    | _ :: t => listHasSub t needle

/-- Python expression needle in hay for strings. -/
def strIn (needle hay : String) : Bool := listHasSub hay.data needle.data

/-- Python int() applied to a decimal string: optional surrounding
whitespace, an optional sign, then at least one digit.  (Pythonic extras
such as underscore separators do not occur in the stored data and are not
modeled.) -/
def pyStrToInt (s : String) : Option Int :=
  let cs := ((s.data.dropWhile Char.isWhitespace).reverse.dropWhile
    Char.isWhitespace).reverse
  let digits : List Char → Option Int := fun ds =>
    if ds.isEmpty || !ds.all Char.isDigit then none
    else some (ds.foldl (fun acc c => acc * 10 + (c.toNat - 48 : Int)) 0)
  match cs with
  | '-' :: rest => (digits rest).map (fun n => -n)
  | '+' :: rest => digits rest
  | _ => digits cs

/-- Python int() coercion of a scalar value; none models a raised
TypeError or ValueError. -/
def pyToInt : PyVal → Option Int
  | .vNone => none
  | .vStr s => pyStrToInt s
  | .vInt n => some n
  | .vBool b => some (if b then 1 else 0)

/-- Python int() of an optional value (a missing dict entry reads as None,
which int() rejects). -/
def pyToIntOpt : Option PyVal → Option Int
  | none => none
  | some v => pyToInt v

/-- Python str() of an optional value: str(None) is the string None. -/
def pyStrOpt : Option PyVal → String
  | none => "None"
  | some v => pyStr v

/-- A flat record: field name to scalar value, one entry per key. -/
structure Record where
  fields : List (String × PyVal)
deriving DecidableEq, Repr

/-- Python record.get(k): first entry with the given key. -/
def Record.get (r : Record) (k : String) : Option PyVal := r.fields.lookup k

/-- One declared column of a table: name plus optional type tag.  (The
Python dict key for the tag is the word type, renamed ctype here because
type is a Lean keyword.) -/
structure Column where
  name : String
  ctype : Option String
deriving DecidableEq, Repr

/-- Stored metadata of one table. -/
structure TableMeta where
  name : Option String
  year : Option PyVal
  country : Option String
  categories : List String
  recordCount : Option Int
  columns : List Column
deriving DecidableEq, Repr

/-- Stored configuration of one database. -/
structure DbConfig where
  name : Option String
  description : Option String
deriving DecidableEq, Repr

/-- The table projection built by _table_meta_from_key. -/
structure Table where
  id : String
  name : Option String
  year : Option PyVal
  country : Option String
  categories : List String
  count : Option Int
  columns : List String
  dbId : Option String
  dbName : Option String
deriving DecidableEq, Repr

/-- The Filters pydantic model (all fields optional). -/
structure Filters where
  tableName : Option String := none
  year : Option PyVal := none
  category : Option String := none
  country : Option String := none
  selectedTables : Option (List String) := none
  categories : Option (List String) := none
  regions : Option (List String) := none
  tableNames : Option (List String) := none
  tableYears : Option (List PyVal) := none
  columnTags : Option (List String) := none
deriving DecidableEq, Repr

/-- One entry of the picked_tables allow-list: optional database id plus
optional table id (a Dict[str, str] in Python, either key may be absent). -/
structure PickedItem where
  db : Option String
  table : Option String
deriving DecidableEq, Repr

/-- The read-only dataset the services consume (metadata store, database
config, database assignments and the per-database record loader). -/
structure Env where
  assignments : List (String × List String)
  dbConfig : List (String × DbConfig)
  tableMeta : List (String × TableMeta)
  records : String → List Record

/-- Typed failure raised by the services (HTTPException). -/
inductive ApiError where
  | badRequest (msg : String)
  | notFound (msg : String)
deriving DecidableEq, Repr

/-- HTTP status code of a typed failure. -/
def ApiError.status : ApiError → Nat
  | .badRequest _ => 400
  | .notFound _ => 404

/- ===== permutations.py ===== -/

/-- Python term[::-1]. -/
def pyReverse (s : String) : String := ⟨s.data.reverse⟩

/-- Python term * n. -/
def pyRepeat (s : String) (n : Nat) : String := String.join (List.replicate n s)

/-- The level parameter of the double strategy: (params or {}).get with
default low. -/
def levelOf (params : Option (List (String × PyVal))) : PyVal :=
  ((params.getD []).lookup "level").getD (PyVal.vStr "low")

/-- apply_permutation from permutations.py. -/
def applyPermutation (term : String) (permutationId : String)
    (params : Option (List (String × PyVal))) : List String :=
  if permutationId = "reverse" then [term, pyReverse term]
  else if permutationId = "double" then
    let lv := levelOf params
    let maxRep : Nat :=
      if lv = PyVal.vStr "low" then 2
      else if lv = PyVal.vStr "medium" then 3
      else if lv = PyVal.vStr "high" then 4
      else 2
    term :: (List.range' 2 (maxRep - 1)).map (fun i => pyRepeat term i)
  else [term]

/-- Python dict assignment d[k] = v on an association list: update the
entry in place when the key exists, append it otherwise. -/
def dictSet {β : Type} (m : List (String × β)) (k : String) (v : β) :
    List (String × β) :=
  if m.any (fun p => p.1 == k) then
    m.map (fun p => if p.1 == k then (k, v) else p)
  else m ++ [(k, v)]

/-- expand_terms from permutations.py: builds the term to variants dict. -/
def expandTerms (terms : List String) (permutationId : String)
    (params : Option (List (String × PyVal))) : List (String × List String) :=
  terms.foldl (fun m t => dictSet m t (applyPermutation t permutationId params)) []

/- ===== pagination.py ===== -/

/-- Python list slice l[a:b] with step 1, including the semantics of
negative bounds (counted from the end of the list). -/
def pySliceList {α : Type} (l : List α) (a b : Int) : List α :=
  let n : Int := l.length
  let lo : Int := if a < 0 then max (n + a) 0 else min a n
  let hi : Int := if b < 0 then max (n + b) 0 else min b n
  (l.drop lo.toNat).take (hi - lo).toNat

/-- Pagination metadata returned by paginate_rows. -/
structure PageInfo where
  hasMore : Bool
  nextOffset : Option Int
  pageNumber : Int
  pageSize : Int
  totalRecords : Int
deriving DecidableEq, Repr

/-- Result of paginate_rows: the page slice plus pagination metadata. -/
structure PageResult where
  rows : List (List String)
  pagination : PageInfo
deriving DecidableEq, Repr

/-- paginate_rows from pagination.py. -/
def paginateRows (rows : List (List String)) (startRow size pageNumber : Int) :
    PageResult :=
  let total : Int := rows.length
  let start : Int := max startRow 0
  let e : Int := start + size
  { rows := pySliceList rows start e
    pagination :=
      { hasMore := e < total
        nextOffset := if e < total then some e else none
        pageNumber := pageNumber
        pageSize := size
        totalRecords := total } }

/- ===== search_service.py ===== -/

/-- _dedupe_preserve_order: keep the first occurrence of each item. -/
def dedupeAux (seen : List String) : List String → List String
  | [] => []
  | x :: xs =>
    if seen.contains x then dedupeAux seen xs
    else x :: dedupeAux (x :: seen) xs

/-- _dedupe_preserve_order from search_service.py. -/
def dedupePreserveOrder (items : List String) : List String := dedupeAux [] items

/-- _table_meta_from_key from search_service.py: resolve a table id to its
metadata projection; none when the metadata store has no entry.  The
db name is attached only when the db key is truthy, the db config dict is
truthy and the configured name is truthy. -/
def tableMetaFromKey (tableKey : String) (tm : List (String × TableMeta))
    (countOverride : Option Int) (dbKey : Option String)
    (dbCfg : Option (List (String × DbConfig))) : Option Table :=
  match tm.lookup tableKey with
  | none => none
  | some meta =>
    let base : Table :=
      { id := tableKey
        name := meta.name
        year := meta.year
        country := meta.country
        categories := meta.categories
        count := match countOverride with
          | some c => some c
          | none => meta.recordCount
        columns := meta.columns.map (fun c => c.name)
        dbId := none
        dbName := none }
    match dbKey with
    | none => some base
    | some dk =>
      if dk = "" then some base
      else
        let dbName : Option String :=
          match dbCfg with
          | none => none
          | some cfgl =>
            if cfgl.isEmpty then none
            else match (cfgl.lookup dk).bind DbConfig.name with
              | none => none
              | some nm => if nm = "" then none else some nm
        some { base with dbId := some dk, dbName := dbName }

/-- Content of a clause element: optional value and optional type tag. -/
structure ClauseContent where
  value : Option PyVal
  bdt : Option String
deriving DecidableEq, Repr

/-- The variant list a clause matches against: the original term plus the
mapped variants when the permutation dict is truthy and has the term as a
key, deduplicated.  (Python builds the deduplicated list through a set,
whose order is arbitrary; only membership is ever used.) -/
def variantsOf (term : String)
    (perms : Option (List (String × List String))) : List String :=
  let base :=
    match perms with
    | none => [term]
    | some pl =>
      if pl.isEmpty then [term]
      else match pl.lookup term with
        | some vs => term :: vs
        | none => [term]
  base.dedup

/-- Lowercased variant list, as bound to lower_variants in the source. -/
def lowerVariantsOf (term : String)
    (perms : Option (List (String × List String))) : List String :=
  (variantsOf term perms).map pyLower

/-- Resolution of the metadata of the table owning a record: the tableKey
field must be present and truthy; metadata keys are strings, so a
non-string tableKey resolves to nothing. -/
def metaForRecord (tm : List (String × TableMeta)) (r : Record) :
    Option TableMeta :=
  match r.get "tableKey" with
  | some (PyVal.vStr s) => if s = "" then none else tm.lookup s
  | _ => none

/-- Names of the declared columns whose type tag equals the given bdt. -/
def matchingCols (meta : TableMeta) (bdt : String) : List String :=
  (meta.columns.filter (fun c => c.ctype == some bdt)).map (fun c => c.name)

/-- _evaluate_clause from search_service.py. -/
def evalClause (content : ClauseContent) (r : Record)
    (tm : List (String × TableMeta))
    (perms : Option (List (String × List String))) : Bool :=
  match content.value with
  | none => false
  | some v =>
    let term := pyStr v
    let lowerVariants := lowerVariantsOf term perms
    let bdtTruthy := match content.bdt with
      | some b => b ≠ ""
      | none => false
    if !bdtTruthy then
      r.fields.any (fun p =>
        p.2 ≠ PyVal.vNone &&
          lowerVariants.any (fun lv => strIn lv (pyLower (pyStr p.2))))
    else
      match metaForRecord tm r with
      | none => false
      | some meta =>
        let cols := matchingCols meta (content.bdt.getD "")
        if cols.isEmpty then false
        else cols.any (fun cn =>
          lowerVariants.any (fun lv =>
            strIn lv (pyLower (pyStr ((r.get cn).getD (PyVal.vStr ""))))))

/-- One element of a sequence query: a clause (any element whose type tag
is neither operator nor subQuery is handed to _evaluate_clause), an
operator element carrying its optional operator string, or a nested
subquery carrying its element list. -/
inductive QElem where
  | clause (content : ClauseContent)
  | operator (op : Option String)
  | subQuery (elems : List QElem)

/-- Truthiness of the pending operator variable. -/
def pendingTruthy : Option String → Bool
  | none => false
  | some s => s ≠ ""

/-- One step of the left fold in _evaluate_query_elements: from the
running (result, pending operator) state and the evaluation res of the
current non-operator element, the next state.  When the running result is
unset the element sets it and the pending operator is kept; when a truthy
operator is pending the result is combined and the operator is cleared;
otherwise the evaluation is discarded. -/
def nextState (result : Option Bool) (pending : Option String) (res : Bool) :
    Option Bool × Option String :=
  match result with
  | none => (some res, pending)
  | some cur =>
    if pendingTruthy pending then
      (some (if pending == some "AND" then cur && res
             else if pending == some "OR" then cur || res
             else cur), none)
    else (some cur, pending)

mutual

/-- The element loop of _evaluate_query_elements, carrying the running
result and the pending operator. -/
def evalLoop (es : List QElem) (r : Record) (tm : List (String × TableMeta))
    (pm : Option (List (String × List String)))
    (result : Option Bool) (pending : Option String) : Option Bool :=
  match es with
  | [] => result
  | QElem.operator op :: rest => evalLoop rest r tm pm result op
  | QElem.clause c :: rest =>
    let st := nextState result pending (evalClause c r tm pm)
    evalLoop rest r tm pm st.1 st.2
  | QElem.subQuery inner :: rest =>
    let st := nextState result pending (evalQueryElements inner r tm pm)
    evalLoop rest r tm pm st.1 st.2

/-- _evaluate_query_elements from search_service.py. -/
def evalQueryElements (es : List QElem) (r : Record)
    (tm : List (String × TableMeta))
    (pm : Option (List (String × List String))) : Bool :=
  if es.isEmpty then true
  else match evalLoop es r tm pm none none with
    | some b => b
    | none => true

end

/-- A query payload: either a plain string or a list of elements (null is
modeled by an Option around this type at the call sites). -/
inductive Query where
  | str (s : String)
  | elems (es : List QElem)

/-- Python truthiness of a query payload. -/
def queryTruthy : Option Query → Bool
  | none => false
  | some (.str s) => s ≠ ""
  | some (.elems es) => !es.isEmpty

/-- String query matching of one record: the lowercased term occurs in
some non-null stringified field value. -/
def recordMatchesString (term : String) (r : Record) : Bool :=
  r.fields.any (fun p =>
    p.2 ≠ PyVal.vNone && strIn (pyLower term) (pyLower (pyStr p.2)))

/-- _apply_query_to_records from search_service.py. -/
def applyQueryToRecords (records : List Record) (query : Option Query)
    (tm : List (String × TableMeta))
    (pm : Option (List (String × List String))) : List Record :=
  if !queryTruthy query then records
  else match query with
    | some (.str s) => records.filter (recordMatchesString s)
    | some (.elems es) => records.filter (fun r => evalQueryElements es r tm pm)
    | none => records

/- _filter_tables_by_filters: one predicate per filter field, combined in
the source as a chain of guarded continues, i.e. a conjunction. -/

/-- selectedTables allow-list predicate. -/
def selKeep (f : Filters) (t : Table) : Bool :=
  match f.selectedTables with
  | some (x :: xs) => (x :: xs).contains t.id
  | _ => true

/-- tableName substring predicate (lowercased containment; a missing table
name reads as the empty string). -/
def nameKeep (f : Filters) (t : Table) : Bool :=
  match f.tableName with
  | some s => if s = "" then true else strIn (pyLower s) (pyLower (t.name.getD ""))
  | none => true

/-- year predicate: active unless the filter year is absent or the string
all; both sides are coerced with int() and the table survives only when
both coercions succeed and agree (a coercion failure excludes the table). -/
def yearKeep (f : Filters) (t : Table) : Bool :=
  match f.year with
  | none => true
  | some y =>
    if y = PyVal.vStr "all" then true
    else match pyToIntOpt t.year, pyToInt y with
      | some a, some b => a == b
      | _, _ => false

/-- category membership predicate. -/
def catKeep (f : Filters) (t : Table) : Bool :=
  match f.category with
  | none => true
  | some c => if c = "all" then true else t.categories.contains c

/-- country equality predicate. -/
def countryKeep (f : Filters) (t : Table) : Bool :=
  match f.country with
  | none => true
  | some c =>
    if c = "all" then true
    else match t.country with
      | some tc => tc == c
      | none => false

/-- categories any-of predicate. -/
def catsKeep (f : Filters) (t : Table) : Bool :=
  match f.categories with
  | some (x :: xs) => (x :: xs).any (fun c => t.categories.contains c)
  | _ => true

/-- regions any-of predicate (requires a truthy country on the table). -/
def regionsKeep (f : Filters) (t : Table) : Bool :=
  match f.regions with
  | some (x :: xs) =>
    (match t.country with
     | some tc => if tc = "" then false else (x :: xs).contains tc
     | none => false)
  | _ => true

/-- tableNames any-of predicate. -/
def namesKeep (f : Filters) (t : Table) : Bool :=
  match f.tableNames with
  | some (x :: xs) =>
    (match t.name with
     | some n => (x :: xs).contains n
     | none => false)
  | _ => true

/-- tableYears any-of predicate, compared through str() on both sides. -/
def yearsKeep (f : Filters) (t : Table) : Bool :=
  match f.tableYears with
  | some (x :: xs) => ((x :: xs).map pyStr).contains (pyStrOpt t.year)
  | _ => true

/-- The conjunction of all filter predicates, in source order. -/
def keepTable (f : Filters) (t : Table) : Bool :=
  selKeep f t && nameKeep f t && yearKeep f t && catKeep f t &&
    countryKeep f t && catsKeep f t && regionsKeep f t && namesKeep f t &&
    yearsKeep f t

/-- _filter_tables_by_filters from search_service.py. -/
def filterTables (tables : List Table) (f : Filters) : List Table :=
  tables.filter (keepTable f)

/- _apply_picked_tables_constraint -/

/-- The (db, table) pairs of the allow-list: entries without a table key
are dropped; an absent db key is the wildcard. -/
def pickedPairs (items : List PickedItem) : List (Option String × String) :=
  items.filterMap (fun i => i.table.map (fun tb => (i.db, tb)))

/-- The database id of a table as the constraint reads it: dbId when
truthy (the source falls back to a db key the projection never sets). -/
def pickedDb (t : Table) : Option String :=
  match t.dbId with
  | some d => if d = "" then none else some d
  | none => none

/-- Whether a table survives a non-empty pair set: its own (db, table)
pair is allowed, or a wildcard entry carries its table id. -/
def pickedSurvives (pairs : List (Option String × String)) (t : Table) : Bool :=
  pairs.contains (pickedDb t, t.id) || pairs.contains (none, t.id)

/-- _apply_picked_tables_constraint from search_service.py. -/
def applyPickedTables (tables : List Table)
    (picked : Option (List PickedItem)) : List Table :=
  match picked with
  | none => tables
  | some items =>
    if items.isEmpty then tables
    else
      let pairs := pickedPairs items
      if pairs.isEmpty then []
      else tables.filter (pickedSurvives pairs)

/- _tables_for_db -/

/-- The tableKey field of a record when it is a truthy string (the only
case in which the source counts the record under a table; metadata and
count keys are strings). -/
def recTK (r : Record) : Option String :=
  match r.get "tableKey" with
  | some (PyVal.vStr s) => if s = "" then none else some s
  | _ => none

/-- Per-database result of _tables_for_db: resolved table projections in
assignment order plus the per-table count dict. -/
structure DbTables where
  tables : List Table
  counts : List (String × Int)

/-- Count dict over the filtered records: one increment per record with a
truthy tableKey. -/
def countsOfRecords (records : List Record) : List (String × Int) :=
  records.foldl
    (fun m r =>
      match recTK r with
      | some tk => dictSet m tk (((m.lookup tk).getD 0) + 1)
      | none => m)
    []

/-- _tables_for_db from search_service.py. -/
def tablesForDb (env : Env) (dbKey : String) (query : Option Query)
    (pm : Option (List (String × List String))) : DbTables :=
  let tableKeysForDb := (env.assignments.lookup dbKey).getD []
  let records := env.records dbKey
  let filteredRecords := applyQueryToRecords records query env.tableMeta pm
  let withQuery := queryTruthy query
  let tableCounts : List (String × Int) :=
    if withQuery then countsOfRecords filteredRecords
    else (dedupePreserveOrder tableKeysForDb).map
      (fun tid => (tid, ((env.tableMeta.lookup tid).bind TableMeta.recordCount).getD 0))
  let orderedTableIds : List String :=
    if withQuery then
      tableKeysForDb.filter (fun tid =>
        filteredRecords.any (fun r => recTK r == some tid))
    else tableKeysForDb
  let tables := orderedTableIds.filterMap (fun tid =>
    tableMetaFromKey tid env.tableMeta (tableCounts.lookup tid)
      (some dbKey) (some env.dbConfig))
  { tables := tables, counts := tableCounts }

/- _build_facets -/

/-- Facet accumulators.  Python accumulates into dicts read only through
get with default 0; they are modeled as total maps defaulting to 0. -/
structure Facets where
  categories : String → Int
  regions : String → Int
  tableNames : String → Int
  tableYears : String → Int

/-- The zero facet accumulators. -/
def Facets.empty : Facets := ⟨fun _ => 0, fun _ => 0, fun _ => 0, fun _ => 0⟩

/-- Python d[k] = d.get(k, 0) + w on a facet map. -/
def facetBump (m : String → Int) (k : String) (w : Int) : String → Int :=
  fun k2 => if k2 = k then m k2 + w else m k2

/-- The weight a table contributes: its entry in the count dict, with 1
substituted when the entry is 0 or absent. -/
def effectiveWeight (counts : List (String × Int)) (t : Table) : Int :=
  let w := (counts.lookup t.id).getD 0
  if w = 0 then 1 else w

/-- The truthy country of a table, as the facet builder branches on it. -/
def regionKeyOf (t : Table) : Option String :=
  match t.country with
  | some c => if c = "" then none else some c
  | none => none

/-- The truthy name of a table. -/
def nameKeyOf (t : Table) : Option String :=
  match t.name with
  | some n => if n = "" then none else some n
  | none => none

/-- The stringified year of a table when the year is not None. -/
def yearKeyOf (t : Table) : Option String := t.year.map pyStr

/-- One iteration of the facet loop over one table. -/
def facetStep (counts : List (String × Int)) (f : Facets) (t : Table) :
    Facets :=
  let w := effectiveWeight counts t
  let cats := t.categories.foldl (fun m c => facetBump m c w) f.categories
  let regs := match regionKeyOf t with
    | some c => facetBump f.regions c w
    | none => f.regions
  let names := match nameKeyOf t with
    | some n => facetBump f.tableNames n w
    | none => f.tableNames
  let years := match yearKeyOf t with
    | some y => facetBump f.tableYears y w
    | none => f.tableYears
  ⟨cats, regs, names, years⟩

/-- _build_facets from search_service.py. -/
def buildFacets (tables : List Table) (counts : List (String × Int)) :
    Facets :=
  tables.foldl (facetStep counts) Facets.empty

/- search_tables -/

/-- Result of search_tables. -/
structure SearchResult where
  tables : List Table
  facets : Facets
  total : Nat

/-- _normalize_filters from search_service.py. -/
def normalizeFilters (f : Option Filters) : Filters := f.getD {}

/-- The concatenated per-database tables and the accumulated count dict of
the search_tables loop over the selected databases. -/
def combinedFor (env : Env) (selected : List String) (query : Option Query)
    (pm : Option (List (String × List String))) :
    List Table × List (String × Int) :=
  selected.foldl
    (fun acc dbKey =>
      let result := tablesForDb env dbKey query pm
      (acc.1 ++ result.tables,
       result.counts.foldl
         (fun m p => dictSet m p.1 (((m.lookup p.1).getD 0) + p.2)) acc.2))
    ([], [])

/-- The candidate tables of a search_tables call: the concatenated tables
of the deduplicated databases after the filter predicates, i.e. the list
the picked-tables constraint is applied to. -/
def searchCandidates (env : Env) (dbKeys : List String) (query : Option Query)
    (filters : Option Filters)
    (pm : Option (List (String × List String))) : List Table :=
  filterTables (combinedFor env (dedupePreserveOrder dbKeys) query pm).1
    (normalizeFilters filters)

/-- search_tables from search_service.py. -/
def searchTables (env : Env) (dbKeys : List String) (query : Option Query)
    (filters : Option Filters)
    (pm : Option (List (String × List String)))
    (picked : Option (List PickedItem)) : Except ApiError SearchResult :=
  let selected := dedupePreserveOrder dbKeys
  if selected.isEmpty then
    Except.error (ApiError.badRequest "At least one database must be provided")
  else match selected.find? (fun k => (env.assignments.lookup k).isNone) with
    | some k =>
      Except.error (ApiError.notFound ("Database " ++ k ++ " not found"))
    | none =>
      let combined := combinedFor env selected query pm
      let afterFilters := filterTables combined.1 (normalizeFilters filters)
      let afterPicked := applyPickedTables afterFilters picked
      let visibleCounts := afterPicked.foldl
        (fun m t => dictSet m t.id ((combined.2.lookup t.id).getD 0)) []
      Except.ok
        { tables := afterPicked
          facets := buildFacets afterPicked visibleCounts
          total := afterPicked.length }

/- ===== helper lemmas ===== -/

lemma lookup_cons {β : Type} (a k : String) (v : β) (es : List (String × β)) :
    List.lookup a ((k, v) :: es) = if a = k then some v else List.lookup a es := by
  by_cases h : a = k
  · subst h
    simp [List.lookup]
  · have hb : (a == k) = false := beq_false_of_ne h
    simp [List.lookup, hb, h]

lemma lookup_map_set {β : Type} (m : List (String × β)) (k : String) (v : β)
    (h : m.any (fun p => p.1 == k) = true) :
    (m.map (fun p => if p.1 == k then (k, v) else p)).lookup k = some v := by
  induction m with
  | nil => simp at h
  | cons hd tl ih =>
    obtain ⟨k1, v1⟩ := hd
    by_cases hk : k1 = k
    · simp only [List.map_cons]
      rw [show ((if ((k1, v1).1 == k) = true then (k, v) else (k1, v1)) = (k, v)) by
        simp [hk]]
      rw [lookup_cons]
      simp
    · have hh : (k1 == k) = false := beq_false_of_ne hk
      simp only [List.any_cons, hh, Bool.false_or] at h
      simp only [List.map_cons]
      rw [show ((if ((k1, v1).1 == k) = true then (k, v) else (k1, v1)) = (k1, v1)) by
        simp [hh]]
      rw [lookup_cons, if_neg (Ne.symm hk)]
      exact ih h

lemma lookup_append_new {β : Type} (m : List (String × β)) (k : String) (v : β)
    (h : m.any (fun p => p.1 == k) = false) :
    (m ++ [(k, v)]).lookup k = some v := by
  induction m with
  | nil =>
    simp only [List.nil_append]
    rw [lookup_cons]
    simp
  | cons hd tl ih =>
    obtain ⟨k1, v1⟩ := hd
    simp only [List.any_cons, Bool.or_eq_false_iff] at h
    have hk : k ≠ k1 := by
      intro hc
      subst hc
      simp at h
    simp only [List.cons_append]
    rw [lookup_cons, if_neg hk]
    exact ih h.2

lemma dictSet_lookup_self {β : Type} (m : List (String × β)) (k : String) (v : β) :
    (dictSet m k v).lookup k = some v := by
  unfold dictSet
  by_cases h : m.any (fun p => p.1 == k) = true
  · simp only [h, if_true]
    exact lookup_map_set m k v h
  · have h2 : m.any (fun p => p.1 == k) = false := by
      revert h
      cases m.any (fun p => p.1 == k) <;> simp
    simp only [h2, Bool.false_eq_true, if_false]
    exact lookup_append_new m k v h2

lemma lookup_map_set_ne {β : Type} (m : List (String × β)) (k k2 : String)
    (v : β) (h : k2 ≠ k) :
    (m.map (fun p => if p.1 == k then (k, v) else p)).lookup k2 = m.lookup k2 := by
  induction m with
  | nil => simp
  | cons hd tl ih =>
    obtain ⟨k1, v1⟩ := hd
    by_cases hk : k1 = k
    · simp only [List.map_cons]
      rw [show ((if ((k1, v1).1 == k) = true then (k, v) else (k1, v1)) = (k, v)) by
        simp [hk]]
      rw [lookup_cons, lookup_cons, if_neg h, if_neg (hk ▸ h)]
      exact ih
    · have hh : (k1 == k) = false := beq_false_of_ne hk
      simp only [List.map_cons]
      rw [show ((if ((k1, v1).1 == k) = true then (k, v) else (k1, v1)) = (k1, v1)) by
        simp [hh]]
      rw [lookup_cons, lookup_cons]
      by_cases hk2 : k2 = k1
      · simp [hk2]
      · rw [if_neg hk2, if_neg hk2]
        exact ih

lemma dictSet_lookup_ne {β : Type} (m : List (String × β)) (k k2 : String)
    (v : β) (h : k2 ≠ k) : (dictSet m k v).lookup k2 = m.lookup k2 := by
  unfold dictSet
  by_cases ha : m.any (fun p => p.1 == k) = true
  · simp only [ha, if_true]
    exact lookup_map_set_ne m k k2 v h
  · have h2 : m.any (fun p => p.1 == k) = false := by
      revert ha
      cases m.any (fun p => p.1 == k) <;> simp
    simp only [h2, Bool.false_eq_true, if_false]
    induction m with
    | nil =>
      simp only [List.nil_append]
      rw [lookup_cons, if_neg h]
    | cons hd tl ih =>
      obtain ⟨k1, v1⟩ := hd
      simp only [List.any_cons, Bool.or_eq_false_iff] at h2
      simp only [List.cons_append]
      rw [lookup_cons, lookup_cons]
      by_cases hk2 : k2 = k1
      · simp [hk2]
      · rw [if_neg hk2, if_neg hk2]
        exact ih (by simp [h2.2]) h2.2

lemma foldl_dictSet_lookup {β : Type} (f : String → β) (ts : List String)
    (m : List (String × β)) (k : String) :
    (ts.foldl (fun acc t => dictSet acc t (f t)) m).lookup k =
      if k ∈ ts then some (f k) else m.lookup k := by
  induction ts generalizing m with
  | nil => simp
  | cons hd tl ih =>
    simp only [List.foldl_cons, ih]
    by_cases hmem : k ∈ tl
    · simp [hmem]
    · by_cases hk : k = hd
      · subst hk
        simp [hmem, dictSet_lookup_self]
      · simp [hmem, hk, dictSet_lookup_ne m hd k (f hd) hk]

/- ===== C9 ===== -/

/-- Claim C9: apply_permutation with the reverse strategy returns the term
and its reversal; with the double strategy it returns the term plus the
repeated forms up to the level-mapped count (2 for low or an unknown or
absent level, 3 for medium, 4 for high); any unrecognized strategy id
returns just the term; and expand_terms maps every input term to exactly
the variant list apply_permutation produces for it, as in the expansion of
abc under reverse. -/
theorem permutation_expander_strategies :
    (∀ (t : String) (ps : Option (List (String × PyVal))),
        applyPermutation t "reverse" ps = [t, pyReverse t]) ∧
    (∀ t ps, levelOf ps = PyVal.vStr "low" →
        applyPermutation t "double" ps = [t, pyRepeat t 2]) ∧
    (∀ t ps, levelOf ps ≠ PyVal.vStr "low" → levelOf ps ≠ PyVal.vStr "medium" →
        levelOf ps ≠ PyVal.vStr "high" →
        applyPermutation t "double" ps = [t, pyRepeat t 2]) ∧
    (∀ t ps, levelOf ps = PyVal.vStr "medium" →
        applyPermutation t "double" ps = [t, pyRepeat t 2, pyRepeat t 3]) ∧
    (∀ t ps, levelOf ps = PyVal.vStr "high" →
        applyPermutation t "double" ps =
          [t, pyRepeat t 2, pyRepeat t 3, pyRepeat t 4]) ∧
    (∀ t pid ps, pid ≠ "reverse" → pid ≠ "double" →
        applyPermutation t pid ps = [t]) ∧
    (∀ ts pid ps t, t ∈ ts →
        (expandTerms ts pid ps).lookup t = some (applyPermutation t pid ps)) ∧
    expandTerms ["abc"] "reverse" (some []) = [("abc", ["abc", "cba"])] := by
  refine ⟨?_, ?_, ?_, ?_, ?_, ?_, ?_, ?_⟩
  · intro t ps
    simp [applyPermutation]
  · intro t ps h
    simp [applyPermutation, h, List.range']
  · intro t ps h1 h2 h3
    simp [applyPermutation, h1, h2, h3, List.range']
  · intro t ps h
    simp [applyPermutation, h, List.range']
  · intro t ps h
    have hlm : levelOf ps ≠ PyVal.vStr "low" := by
      rw [h]
      intro hc
      exact absurd (PyVal.vStr.inj hc) (by decide)
    have hmm : levelOf ps ≠ PyVal.vStr "medium" := by
      rw [h]
      intro hc
      exact absurd (PyVal.vStr.inj hc) (by decide)
    simp [applyPermutation, h, hlm, hmm, List.range']
  · intro t pid ps h1 h2
    simp [applyPermutation, h1, h2]
  · intro ts pid ps t hmem
    unfold expandTerms
    rw [foldl_dictSet_lookup (fun t => applyPermutation t pid ps) ts [] t]
    simp [hmem]
  · decide

/-- Claim C9 witness: concrete evaluations obtained from the theorem. -/
theorem permutation_expander_strategies_witness :
    applyPermutation "x" "double" (some [("level", PyVal.vStr "medium")]) =
      ["x", "xx", "xxx"] ∧
    (expandTerms ["abc"] "reverse" (some [])).lookup "abc" =
      some ["abc", "cba"] := by
  constructor
  · have h := permutation_expander_strategies.2.2.2.1 "x"
      (some [("level", PyVal.vStr "medium")]) (by decide)
    rw [h]
    decide
  · have h := permutation_expander_strategies.2.2.2.2.2.2.1 ["abc"] "reverse"
      (some []) "abc" (by decide)
    rw [h]
    decide

/- ===== C7 ===== -/

/-- Claim C7 counterexample: with four rows, startRow 2 and sizeLimit -3
the slice bound start + size is -1, which Python interprets as one from
the end of the list, so one row is returned although the claimed formula
max(0, min(n, T - s)) gives 0. -/
theorem pagination_bounds_counterexample :
    (paginateRows [["a"], ["b"], ["c"], ["d"]] 2 (-3) 1).rows = [["c"]] ∧
    ¬ (((paginateRows [["a"], ["b"], ["c"], ["d"]] 2 (-3) 1).rows.length : Int) =
        max 0 (min (-3) ((4 : Int) - 2))) := by
  constructor
  · decide
  · decide

/-- Claim C7 (amended): for a non-negative sizeLimit n, with the start row
clamped to s0 = max(s, 0), paginate_rows returns exactly
max(0, min(n, T - s0)) rows, hasMore = (s0 + n) < T, nextOffset = s0 + n
when s0 + n < T and none otherwise, pageSize = n and totalRecords = T.
For a negative n whose clamped start plus n is negative, Python slice
semantics count the upper bound from the end of the list and more rows
than the formula can be returned. -/
theorem pagination_bounds (rows : List (List String)) (s n p : Int)
    (hn : 0 ≤ n) :
    (((paginateRows rows s n p).rows.length : Int) =
        max 0 (min n ((rows.length : Int) - max s 0))) ∧
    (paginateRows rows s n p).pagination.hasMore =
        decide (max s 0 + n < (rows.length : Int)) ∧
    (paginateRows rows s n p).pagination.nextOffset =
        (if max s 0 + n < (rows.length : Int) then some (max s 0 + n) else none) ∧
    (paginateRows rows s n p).pagination.pageSize = n ∧
    (paginateRows rows s n p).pagination.totalRecords = (rows.length : Int) := by
  have hs0 : (0 : Int) ≤ max s 0 := le_max_right s 0
  have he0 : (0 : Int) ≤ max s 0 + n := by omega
  refine ⟨?_, rfl, rfl, rfl, rfl⟩
  unfold paginateRows pySliceList
  simp only
  rw [if_neg (by omega : ¬ (max s 0 < 0)), if_neg (by omega : ¬ (max s 0 + n < 0))]
  rw [List.length_take, List.length_drop]
  have hcast : ∀ a b : Nat, ((min a b : Nat) : Int) = min (a : Int) (b : Int) := by
    intro a b
    simp [Nat.cast_min]
  rw [hcast]
  have h1 : ((min (max s 0 + n) (rows.length : Int) -
      min (max s 0) (rows.length : Int)).toNat : Int) =
      max 0 (min (max s 0 + n) (rows.length : Int) -
        min (max s 0) (rows.length : Int)) := by
    omega
  have h2 : (((min (max s 0) (rows.length : Int)).toNat : Int)) =
      min (max s 0) (rows.length : Int) := by
    omega
  have h3 : ((rows.length - (min (max s 0) (rows.length : Int)).toNat : Nat) : Int) =
      (rows.length : Int) - min (max s 0) (rows.length : Int) := by
    omega
  rw [h1, h3]
  omega

/-- Claim C7 witness: the amended theorem applied at one row, startRow 0,
sizeLimit 20. -/
theorem pagination_bounds_witness :
    (((paginateRows [["r"]] 0 20 1).rows.length : Int) =
        max 0 (min 20 ((([["r"]] : List (List String)).length : Int) - max 0 0))) ∧
    (paginateRows [["r"]] 0 20 1).pagination.hasMore =
        decide (max (0 : Int) 0 + 20 < (([["r"]] : List (List String)).length : Int)) ∧
    (paginateRows [["r"]] 0 20 1).pagination.nextOffset =
        (if max (0 : Int) 0 + 20 < (([["r"]] : List (List String)).length : Int)
         then some (max (0 : Int) 0 + 20) else none) ∧
    (paginateRows [["r"]] 0 20 1).pagination.pageSize = 20 ∧
    (paginateRows [["r"]] 0 20 1).pagination.totalRecords =
        (([["r"]] : List (List String)).length : Int) :=
  pagination_bounds [["r"]] 0 20 1 (by decide)

/- ===== C8 ===== -/

/-- Claim C8: an absent year filter or the string all is a no-op; an
active year filter keeps a table exactly when the int() coercions of both
the stored year and the filter year succeed and agree (a coercion failure
excludes the table instead of raising); and a table passes the whole
filter stage exactly when it passes every individual predicate, the year
predicate among them, combined conjunctively. -/
theorem year_filter_coercion :
    (∀ (f : Filters) (t : Table),
        f.year = none ∨ f.year = some (PyVal.vStr "all") → yearKeep f t = true) ∧
    (∀ (f : Filters) (t : Table) (y : PyVal), f.year = some y →
        y ≠ PyVal.vStr "all" →
        (yearKeep f t = true ↔
          ∃ a, pyToIntOpt t.year = some a ∧ pyToInt y = some a)) ∧
    (∀ (tables : List Table) (f : Filters) (t : Table),
        t ∈ filterTables tables f ↔
          t ∈ tables ∧ selKeep f t = true ∧ nameKeep f t = true ∧
            yearKeep f t = true ∧ catKeep f t = true ∧ countryKeep f t = true ∧
            catsKeep f t = true ∧ regionsKeep f t = true ∧
            namesKeep f t = true ∧ yearsKeep f t = true) := by
  refine ⟨?_, ?_, ?_⟩
  · intro f t h
    rcases h with h | h <;> simp [yearKeep, h]
  · intro f t y hy hall
    rw [yearKeep, hy]
    simp only [if_neg hall]
    cases hta : pyToIntOpt t.year with
    | none => simp
    | some a =>
      cases hyb : pyToInt y with
      | none => simp
      | some b =>
        constructor
        · intro h
          exact ⟨a, rfl, by rw [eq_of_beq h]⟩
        · rintro ⟨c, hc1, hc2⟩
          have h1 : a = c := by injection hc1
          have h2 : b = c := by injection hc2
          subst h1
          subst h2
          simp
  · intro tables f t
    simp only [filterTables, List.mem_filter, keepTable, Bool.and_eq_true,
      and_assoc]

/-- Claim C8 witness: the active-year characterization applied to a
concrete filter and table with an integer stored year and a string filter
year. -/
theorem year_filter_coercion_witness :
    yearKeep { year := some (PyVal.vStr "2020") }
      { id := "t1", name := none, year := some (PyVal.vInt 2020),
        country := none, categories := [], count := none, columns := [],
        dbId := none, dbName := none } = true := by
  have h := year_filter_coercion.2.1
    { year := some (PyVal.vStr "2020") }
    { id := "t1", name := none, year := some (PyVal.vInt 2020),
      country := none, categories := [], count := none, columns := [],
      dbId := none, dbName := none }
    (PyVal.vStr "2020") rfl (by decide)
  exact h.mpr ⟨2020, by decide, by decide⟩

/- ===== C5 ===== -/

lemma facetBump_foldl (cats : List String) (m : String → Int) (w : Int)
    (c : String) :
    (cats.foldl (fun acc k => facetBump acc k w) m) c =
      m c + w * (cats.count c : Int) := by
  induction cats generalizing m with
  | nil => simp
  | cons hd tl ih =>
    rw [List.foldl_cons, ih]
    by_cases h : hd = c
    · subst h
      rw [List.count_cons_self]
      simp [facetBump]
      ring
    · rw [List.count_cons_of_ne (Ne.symm h)]
      simp [facetBump, Ne.symm h]

lemma facetStep_categories (counts : List (String × Int)) (F : Facets)
    (t : Table) (c : String) :
    (facetStep counts F t).categories c =
      F.categories c + effectiveWeight counts t * (t.categories.count c : Int) := by
  simp only [facetStep]
  exact facetBump_foldl t.categories F.categories (effectiveWeight counts t) c

lemma facetStep_regions (counts : List (String × Int)) (F : Facets)
    (t : Table) (k : String) :
    (facetStep counts F t).regions k =
      F.regions k +
        (if regionKeyOf t = some k then effectiveWeight counts t else 0) := by
  simp only [facetStep]
  cases h : regionKeyOf t with
  | none => simp [h]
  | some c =>
    by_cases hc : c = k
    · subst hc
      simp [facetBump]
    · simp [facetBump, Ne.symm hc, hc]

lemma facetStep_names (counts : List (String × Int)) (F : Facets)
    (t : Table) (k : String) :
    (facetStep counts F t).tableNames k =
      F.tableNames k +
        (if nameKeyOf t = some k then effectiveWeight counts t else 0) := by
  simp only [facetStep]
  cases h : nameKeyOf t with
  | none => simp [h]
  | some c =>
    by_cases hc : c = k
    · subst hc
      simp [facetBump]
    · simp [facetBump, Ne.symm hc, hc]

lemma facetStep_years (counts : List (String × Int)) (F : Facets)
    (t : Table) (k : String) :
    (facetStep counts F t).tableYears k =
      F.tableYears k +
        (if yearKeyOf t = some k then effectiveWeight counts t else 0) := by
  simp only [facetStep]
  cases h : yearKeyOf t with
  | none => simp [h]
  | some c =>
    by_cases hc : c = k
    · subst hc
      simp [facetBump]
    · simp [facetBump, Ne.symm hc, hc]

lemma foldl_facetStep_categories (counts : List (String × Int))
    (tables : List Table) (F : Facets) (c : String) :
    (tables.foldl (facetStep counts) F).categories c =
      F.categories c +
        (tables.map (fun t =>
          effectiveWeight counts t * (t.categories.count c : Int))).sum := by
  induction tables generalizing F with
  | nil => simp
  | cons hd tl ih =>
    rw [List.foldl_cons, ih, facetStep_categories]
    simp [add_assoc]

lemma foldl_facetStep_regions (counts : List (String × Int))
    (tables : List Table) (F : Facets) (k : String) :
    (tables.foldl (facetStep counts) F).regions k =
      F.regions k +
        (tables.map (fun t =>
          if regionKeyOf t = some k then effectiveWeight counts t else 0)).sum := by
  induction tables generalizing F with
  | nil => simp
  | cons hd tl ih =>
    rw [List.foldl_cons, ih, facetStep_regions]
    simp [add_assoc]

lemma foldl_facetStep_names (counts : List (String × Int))
    (tables : List Table) (F : Facets) (k : String) :
    (tables.foldl (facetStep counts) F).tableNames k =
      F.tableNames k +
        (tables.map (fun t =>
          if nameKeyOf t = some k then effectiveWeight counts t else 0)).sum := by
  induction tables generalizing F with
  | nil => simp
  | cons hd tl ih =>
    rw [List.foldl_cons, ih, facetStep_names]
    simp [add_assoc]

lemma foldl_facetStep_years (counts : List (String × Int))
    (tables : List Table) (F : Facets) (k : String) :
    (tables.foldl (facetStep counts) F).tableYears k =
      F.tableYears k +
        (tables.map (fun t =>
          if yearKeyOf t = some k then effectiveWeight counts t else 0)).sum := by
  induction tables generalizing F with
  | nil => simp
  | cons hd tl ih =>
    rw [List.foldl_cons, ih, facetStep_years]
    simp [add_assoc]

/-- Claim C5: every facet count built by _build_facets is the sum, over
the tables carrying that facet value, of the effective weight of the
table: the weight map entry of its id, with exactly 1 substituted when
that entry is 0 or absent.  Categories accumulate once per occurrence of
the category on the table; regions, names and years accumulate when the
corresponding attribute is set (truthy country or name, non-None year). -/
theorem facet_weight_fallback (tables : List Table)
    (counts : List (String × Int)) :
    (∀ c, (buildFacets tables counts).categories c =
        (tables.map (fun t =>
          effectiveWeight counts t * (t.categories.count c : Int))).sum) ∧
    (∀ k, (buildFacets tables counts).regions k =
        (tables.map (fun t =>
          if regionKeyOf t = some k then effectiveWeight counts t else 0)).sum) ∧
    (∀ k, (buildFacets tables counts).tableNames k =
        (tables.map (fun t =>
          if nameKeyOf t = some k then effectiveWeight counts t else 0)).sum) ∧
    (∀ k, (buildFacets tables counts).tableYears k =
        (tables.map (fun t =>
          if yearKeyOf t = some k then effectiveWeight counts t else 0)).sum) ∧
    (∀ t : Table, counts.lookup t.id = none ∨ counts.lookup t.id = some 0 →
        effectiveWeight counts t = 1) ∧
    (∀ (t : Table) (w : Int), counts.lookup t.id = some w → w ≠ 0 →
        effectiveWeight counts t = w) := by
  refine ⟨?_, ?_, ?_, ?_, ?_, ?_⟩
  · intro c
    rw [buildFacets, foldl_facetStep_categories]
    simp [Facets.empty]
  · intro k
    rw [buildFacets, foldl_facetStep_regions]
    simp [Facets.empty]
  · intro k
    rw [buildFacets, foldl_facetStep_names]
    simp [Facets.empty]
  · intro k
    rw [buildFacets, foldl_facetStep_years]
    simp [Facets.empty]
  · intro t h
    rcases h with h | h <;> simp [effectiveWeight, h]
  · intro t w h hw
    simp [effectiveWeight, h, hw]

/-- A sample table used by concrete witnesses. -/
def tableT0 : Table :=
  { id := "t0", name := some "T0", year := some (PyVal.vInt 2020),
    country := some "Mexico", categories := ["cat"], count := some 0,
    columns := ["country"], dbId := some "db1", dbName := some "DB" }

/-- Claim C5 witness: the theorem applied to one zero-weight table; its
effective weight is 1 and the category facet sums to it. -/
theorem facet_weight_fallback_witness :
    (buildFacets [tableT0] [("t0", 0)]).categories "cat" =
      ([tableT0].map (fun t =>
        effectiveWeight [("t0", 0)] t * (t.categories.count "cat" : Int))).sum ∧
    effectiveWeight [("t0", 0)] tableT0 = 1 :=
  ⟨(facet_weight_fallback [tableT0] [("t0", 0)]).1 "cat",
   (facet_weight_fallback [tableT0] [("t0", 0)]).2.2.2.2.1 tableT0
     (Or.inr (by decide))⟩

/- ===== C1 and C10 ===== -/

lemma evalLoop_append_op (es : List QElem) (op : Option String) (r : Record)
    (tm : List (String × TableMeta)) (pm : Option (List (String × List String)))
    (res : Option Bool) (pend : Option String) :
    evalLoop (es ++ [QElem.operator op]) r tm pm res pend =
      evalLoop es r tm pm res pend := by
  induction es generalizing res pend with
  | nil => simp [evalLoop]
  | cons hd tl ih =>
    cases hd with
    | clause c =>
      simp only [List.cons_append]
      rw [evalLoop, evalLoop]
      exact ih _ _
    | operator o2 =>
      simp only [List.cons_append]
      rw [evalLoop, evalLoop]
      exact ih _ _
    | subQuery inner =>
      simp only [List.cons_append]
      rw [evalLoop, evalLoop]
      exact ih _ _

/-- Claim C1: the sequence evaluator folds left to right: clauseA AND
clauseB and clauseA OR clauseB evaluate to the boolean combination of the
two clause evaluations, a singleton clause evaluates to its own
evaluation, the empty sequence evaluates to true, and a trailing operator
element with nothing after it never changes the result. -/
theorem fold_correctness :
    (∀ (r : Record) (tm : List (String × TableMeta))
        (pm : Option (List (String × List String))) (cA cB : ClauseContent),
        evalQueryElements
            [QElem.clause cA, QElem.operator (some "AND"), QElem.clause cB]
            r tm pm =
          (evalClause cA r tm pm && evalClause cB r tm pm)) ∧
    (∀ r tm pm cA cB,
        evalQueryElements
            [QElem.clause cA, QElem.operator (some "OR"), QElem.clause cB]
            r tm pm =
          (evalClause cA r tm pm || evalClause cB r tm pm)) ∧
    (∀ r tm pm cA,
        evalQueryElements [QElem.clause cA] r tm pm = evalClause cA r tm pm) ∧
    (∀ r tm pm, evalQueryElements ([] : List QElem) r tm pm = true) ∧
    (∀ r tm pm es op,
        evalQueryElements (es ++ [QElem.operator op]) r tm pm =
          evalQueryElements es r tm pm) := by
  refine ⟨?_, ?_, ?_, ?_, ?_⟩
  · intro r tm pm cA cB
    simp [evalQueryElements, evalLoop, nextState, pendingTruthy]
  · intro r tm pm cA cB
    simp [evalQueryElements, evalLoop, nextState, pendingTruthy]
  · intro r tm pm cA
    simp [evalQueryElements, evalLoop, nextState]
  · intro r tm pm
    simp [evalQueryElements]
  · intro r tm pm es op
    cases es with
    | nil => simp [evalQueryElements, evalLoop]
    | cons hd tl =>
      rw [evalQueryElements, evalQueryElements]
      rw [evalLoop_append_op (hd :: tl) op r tm pm none none]
      simp

/-- Whether an element is an operator element. -/
def isOperatorElem : QElem → Bool
  | .operator _ => true
  | _ => false

/-- Claim C10 (implicit): a non-operator element reached while the running
result is already set and no truthy operator is pending leaves the loop
state unchanged (its evaluation is discarded); in particular a two-element
sequence of non-operator elements, with no operator between them, evaluates
to exactly the evaluation of the first element alone. -/
theorem orphan_element_ignored :
    (∀ (e : QElem) (rest : List QElem) (r : Record)
        (tm : List (String × TableMeta))
        (pm : Option (List (String × List String))) (b : Bool)
        (pend : Option String),
        isOperatorElem e = false → pendingTruthy pend = false →
        evalLoop (e :: rest) r tm pm (some b) pend =
          evalLoop rest r tm pm (some b) pend) ∧
    (∀ (e1 e2 : QElem) r tm pm,
        isOperatorElem e1 = false → isOperatorElem e2 = false →
        evalQueryElements [e1, e2] r tm pm = evalQueryElements [e1] r tm pm) := by
  constructor
  · intro e rest r tm pm b pend he hp
    cases e with
    | clause c =>
      rw [evalLoop]
      simp [nextState, hp]
    | operator o => simp [isOperatorElem] at he
    | subQuery inner =>
      rw [evalLoop]
      simp [nextState, hp]
  · intro e1 e2 r tm pm h1 h2
    cases e1 with
    | operator o => simp [isOperatorElem] at h1
    | clause c =>
      cases e2 with
      | operator o => simp [isOperatorElem] at h2
      | clause c2 =>
        simp [evalQueryElements, evalLoop, nextState, pendingTruthy]
      | subQuery inner2 =>
        simp [evalQueryElements, evalLoop, nextState, pendingTruthy]
    | subQuery inner =>
      cases e2 with
      | operator o => simp [isOperatorElem] at h2
      | clause c2 =>
        simp [evalQueryElements, evalLoop, nextState, pendingTruthy]
      | subQuery inner2 =>
        simp [evalQueryElements, evalLoop, nextState, pendingTruthy]

/-- Claim C10 witness: a concrete two-clause sequence with no operator in
between evaluates to the evaluation of the first clause alone (the second
clause matches the record, the first does not, and the result is still
the result of the first). -/
theorem orphan_element_ignored_witness :
    evalQueryElements
        [QElem.clause ⟨some (PyVal.vStr "zz"), none⟩,
         QElem.clause ⟨some (PyVal.vStr "me"), none⟩]
        ⟨[("a", PyVal.vStr "Mexico")]⟩ [] none =
      evalQueryElements [QElem.clause ⟨some (PyVal.vStr "zz"), none⟩]
        ⟨[("a", PyVal.vStr "Mexico")]⟩ [] none :=
  orphan_element_ignored.2
    (QElem.clause ⟨some (PyVal.vStr "zz"), none⟩)
    (QElem.clause ⟨some (PyVal.vStr "me"), none⟩)
    ⟨[("a", PyVal.vStr "Mexico")]⟩ [] none (by decide) (by decide)

/- ===== C2 ===== -/

/-- Claim C2: a clause with a truthy bdt type tag evaluates to false when
the record resolves to no table metadata, and to false when the table has
no declared column of that type; otherwise it is true exactly when some
lowercased variant of the clause value occurs inside the lowercased
stringified record value of some column whose declared type tag equals
the bdt (a missing column value reading as the empty string).  In
particular a value present only in a differently-typed column never
matches. -/
theorem type_restricted_clause (content : ClauseContent) (b : String)
    (hb : content.bdt = some b) (hb2 : b ≠ "") (r : Record)
    (tm : List (String × TableMeta))
    (pm : Option (List (String × List String))) :
    (metaForRecord tm r = none → evalClause content r tm pm = false) ∧
    (∀ meta, metaForRecord tm r = some meta → matchingCols meta b = [] →
        evalClause content r tm pm = false) ∧
    (∀ meta v, content.value = some v → metaForRecord tm r = some meta →
        matchingCols meta b ≠ [] →
        (evalClause content r tm pm = true ↔
          ∃ cn ∈ matchingCols meta b, ∃ lv ∈ lowerVariantsOf (pyStr v) pm,
            strIn lv (pyLower (pyStr ((r.get cn).getD (PyVal.vStr "")))) =
              true)) := by
  obtain ⟨cv, cb⟩ := content
  replace hb : cb = some b := hb
  subst hb
  have hdec : (!decide (b ≠ "")) = false := by simp [hb2]
  refine ⟨?_, ?_, ?_⟩
  · intro hm
    cases hvv : cv with
    | none => rfl
    | some v =>
      subst hvv
      simp [evalClause, hdec, hm]
      intro hbc
      exact absurd hbc hb2
  · intro meta hm hcols
    cases hvv : cv with
    | none => rfl
    | some v =>
      subst hvv
      simp [evalClause, hdec, hm, hcols]
      intro hbc
      exact absurd hbc hb2
  · intro meta v hv hm hcols
    replace hv : cv = some v := hv
    subst hv
    have hce : (matchingCols meta b).isEmpty = false := by
      cases hme : matchingCols meta b with
      | nil => exact absurd hme hcols
      | cons x xs => rfl
    simp only [evalClause, Option.getD_some, hdec, Bool.false_eq_true,
      if_false, hm, hce]
    rw [List.any_eq_true]
    constructor
    · rintro ⟨cn, hcn, hin⟩
      rw [List.any_eq_true] at hin
      obtain ⟨lv, hlv, hs⟩ := hin
      exact ⟨cn, hcn, lv, hlv, hs⟩
    · rintro ⟨cn, hcn, lv, hlv, hs⟩
      exact ⟨cn, hcn, List.any_eq_true.mpr ⟨lv, hlv, hs⟩⟩

/-- Sample metadata store for the clause witnesses: table t1 has one
column of type date and one of type text. -/
def tmW : List (String × TableMeta) :=
  [("t1", { name := some "T1", year := none, country := none,
            categories := [], recordCount := some 1,
            columns := [⟨"when", some "date"⟩, ⟨"note", some "text"⟩] })]

/-- Sample record for the clause witnesses: the date column holds 2020-01
and the text column holds the textually equal value in a
differently-typed column. -/
def recW : Record :=
  ⟨[("tableKey", PyVal.vStr "t1"), ("when", PyVal.vStr "2020-01"),
    ("note", PyVal.vStr "other")]⟩

/-- Claim C2 witness: the characterization applied to a concrete record
and metadata store; the date-typed clause matches the date column. -/
theorem type_restricted_clause_witness :
    evalClause ⟨some (PyVal.vStr "2020"), some "date"⟩ recW tmW none = true := by
  have h := (type_restricted_clause ⟨some (PyVal.vStr "2020"), some "date"⟩
    "date" rfl (by decide) recW tmW none).2.2
    { name := some "T1", year := none, country := none, categories := [],
      recordCount := some 1,
      columns := [⟨"when", some "date"⟩, ⟨"note", some "text"⟩] }
    (PyVal.vStr "2020") rfl (by decide) (by decide)
  exact h.mpr ⟨"when", by decide, "2020", by decide, by decide⟩

/- ===== C3 ===== -/

/-- Claim C3: a clause with no bdt whose value maps to variants in the
permutation map matches any record in which the original value or any
mapped variant occurs case-insensitively inside some non-null field
value; nothing requires the original term itself to occur anywhere. -/
theorem permutation_inclusion (X Y : String) (ys : List String)
    (pml : List (String × List String)) (hlook : pml.lookup X = some ys)
    (hY : Y = X ∨ Y ∈ ys) (r : Record) (tm : List (String × TableMeta))
    (k : String) (v : PyVal) (hmem : (k, v) ∈ r.fields)
    (hnn : v ≠ PyVal.vNone)
    (hsub : strIn (pyLower Y) (pyLower (pyStr v)) = true) :
    evalClause ⟨some (PyVal.vStr X), none⟩ r tm (some pml) = true := by
  have hne : pml ≠ [] := by
    intro hc
    rw [hc] at hlook
    simp [List.lookup] at hlook
  have hisEmpty : pml.isEmpty = false := by
    cases pml with
    | nil => exact absurd rfl hne
    | cons a l => simp [List.isEmpty]
  have hYmem : Y ∈ variantsOf X (some pml) := by
    unfold variantsOf
    simp only [hisEmpty, Bool.false_eq_true, if_false, hlook]
    rw [List.mem_dedup]
    rcases hY with h | h
    · exact h ▸ List.mem_cons_self X ys
    · exact List.mem_cons_of_mem X h
  have hlvmem : pyLower Y ∈ lowerVariantsOf X (some pml) := by
    unfold lowerVariantsOf
    exact List.mem_map_of_mem pyLower hYmem
  have hany : (lowerVariantsOf X (some pml)).any
      (fun lv => strIn lv (pyLower (pyStr v))) = true :=
    List.any_eq_true.mpr ⟨pyLower Y, hlvmem, hsub⟩
  exact List.any_eq_true.mpr
    ⟨(k, v), hmem, by rw [Bool.and_eq_true]; exact ⟨by simp [hnn], hany⟩⟩

/-- Claim C3 witness: the permutation map sends X to the single variant Y;
the record contains Y but not X, and the clause with value X matches. -/
theorem permutation_inclusion_witness :
    evalClause ⟨some (PyVal.vStr "X"), none⟩ ⟨[("f", PyVal.vStr "aYb")]⟩ []
      (some [("X", ["Y"])]) = true :=
  permutation_inclusion "X" "Y" ["Y"] [("X", ["Y"])] (by decide)
    (Or.inr (by decide)) ⟨[("f", PyVal.vStr "aYb")]⟩ [] "f" (PyVal.vStr "aYb")
    (by decide) (by decide) (by decide)

/- ===== C4 and C6 ===== -/

lemma applyPicked_eq_nil (tables : List Table) (items : List PickedItem)
    (hne : items ≠ [])
    (hall : ∀ t ∈ tables, pickedSurvives (pickedPairs items) t = false) :
    applyPickedTables tables (some items) = [] := by
  have hie : items.isEmpty = false := by
    cases items with
    | nil => exact absurd rfl hne
    | cons a l => rfl
  unfold applyPickedTables
  simp only [hie, Bool.false_eq_true, if_false]
  by_cases hp : (pickedPairs items).isEmpty
  · simp [hp]
  · simp only [hp, Bool.false_eq_true, if_false]
    rw [List.filter_eq_nil_iff]
    intro t ht
    simp [hall t ht]

lemma searchTables_ok_inv (env : Env) (dbKeys : List String)
    (q : Option Query) (f : Option Filters)
    (pm : Option (List (String × List String)))
    (picked : Option (List PickedItem)) (res : SearchResult)
    (hok : searchTables env dbKeys q f pm picked = Except.ok res) :
    res.tables = applyPickedTables (searchCandidates env dbKeys q f pm) picked ∧
    res.total = res.tables.length := by
  by_cases hsel : (dedupePreserveOrder dbKeys).isEmpty
  · simp [searchTables, hsel] at hok
  · cases hfind : (dedupePreserveOrder dbKeys).find?
        (fun k => (env.assignments.lookup k).isNone) with
    | some k =>
      simp only [searchTables, hsel, Bool.false_eq_true, if_false, hfind] at hok
      cases hok
    | none =>
      simp only [searchTables, hsel, Bool.false_eq_true, if_false, hfind,
        Except.ok.injEq] at hok
      subst hok
      exact ⟨rfl, rfl⟩

/-- Claim C4: an absent or empty picked_tables list imposes no constraint;
a non-empty list lets a table through only when its own (db, table) pair
or a wildcard entry with its table id is listed; a non-empty list naming
no candidate table (in particular a list whose entries all lack a table
id) makes search_tables return no tables and total 0; and search_tables
always returns total equal to the number of surviving tables. -/
theorem picked_tables_exclusivity :
    (∀ tables, applyPickedTables tables none = tables ∧
        applyPickedTables tables (some []) = tables) ∧
    (∀ tables items t, items ≠ [] →
        t ∈ applyPickedTables tables (some items) →
        (pickedDb t, t.id) ∈ pickedPairs items ∨
          (none, t.id) ∈ pickedPairs items) ∧
    (∀ env dbKeys q f pm items res, items ≠ [] →
        (∀ t ∈ searchCandidates env dbKeys q f pm,
            pickedSurvives (pickedPairs items) t = false) →
        searchTables env dbKeys q f pm (some items) = Except.ok res →
        res.tables = [] ∧ res.total = 0) ∧
    (∀ env dbKeys q f pm picked res,
        searchTables env dbKeys q f pm picked = Except.ok res →
        res.total = res.tables.length) := by
  refine ⟨?_, ?_, ?_, ?_⟩
  · intro tables
    exact ⟨rfl, rfl⟩
  · intro tables items t hne hmem
    have hie : items.isEmpty = false := by
      cases items with
      | nil => exact absurd rfl hne
      | cons a l => rfl
    unfold applyPickedTables at hmem
    simp only [hie, Bool.false_eq_true, if_false] at hmem
    by_cases hp : (pickedPairs items).isEmpty
    · simp [hp] at hmem
    · simp only [hp, Bool.false_eq_true, if_false] at hmem
      have hs := (List.mem_filter.mp hmem).2
      unfold pickedSurvives at hs
      rcases Bool.or_eq_true_iff.mp hs with h | h
      · exact Or.inl (by simpa using h)
      · exact Or.inr (by simpa using h)
  · intro env dbKeys q f pm items res hne hall hok
    obtain ⟨htab, htot⟩ := searchTables_ok_inv env dbKeys q f pm (some items)
      res hok
    have hnil : applyPickedTables (searchCandidates env dbKeys q f pm)
        (some items) = [] :=
      applyPicked_eq_nil _ items hne hall
    rw [hnil] at htab
    exact ⟨htab, by rw [htot, htab]; rfl⟩
  · intro env dbKeys q f pm picked res hok
    exact (searchTables_ok_inv env dbKeys q f pm picked res hok).2

/-- A sample dataset with one database holding one table. -/
def env0 : Env :=
  { assignments := [("db1", ["t1"])]
    dbConfig := [("db1", { name := some "DB One", description := none })]
    tableMeta := [("t1",
      { name := some "T1", year := some (PyVal.vInt 2020),
        country := some "Mexico", categories := ["cat"],
        recordCount := some 1, columns := [⟨"country", some "text"⟩] })]
    records := fun _ =>
      [⟨[("tableKey", PyVal.vStr "t1"), ("country", PyVal.vStr "Mexico")]⟩] }

/-- Whether an Except value is a success, used to drive concrete witness
evaluations. -/
def exceptIsOk : Except ApiError SearchResult → Bool
  | .ok _ => true
  | .error _ => false

/-- Claim C4 witness: on the sample dataset, a non-empty picked_tables
list naming a table absent from the candidates yields no tables and
total 0, obtained through the theorem. -/
theorem picked_tables_exclusivity_witness :
    ∃ res, searchTables env0 ["db1"] none none none
        (some [⟨none, some "nope"⟩]) = Except.ok res ∧
      res.tables = [] ∧ res.total = 0 := by
  have hok : exceptIsOk (searchTables env0 ["db1"] none none none
      (some [⟨none, some "nope"⟩])) = true := by rfl
  cases h2 : searchTables env0 ["db1"] none none none
      (some [⟨none, some "nope"⟩]) with
  | error e =>
    rw [h2] at hok
    simp [exceptIsOk] at hok
  | ok res =>
    exact ⟨res, rfl, picked_tables_exclusivity.2.2.1 env0 ["db1"] none none
      none [⟨none, some "nope"⟩] res (by decide) (by decide) h2⟩

/-- Claim C6: search_tables rejects an empty deduplicated database-key
list with a 400 client-input error and rejects a key absent from the
assignment map with a 404 not-found error naming the key; both checks
precede any per-database processing, and the whole call fails with the
typed error, producing no partial result. -/
theorem search_tables_validation :
    (∀ env dbKeys q f pm picked, dedupePreserveOrder dbKeys = [] →
        searchTables env dbKeys q f pm picked =
          Except.error
            (ApiError.badRequest "At least one database must be provided") ∧
        (ApiError.badRequest "At least one database must be provided").status
          = 400) ∧
    (∀ env dbKeys q f pm picked,
        (∃ k ∈ dedupePreserveOrder dbKeys, env.assignments.lookup k = none) →
        ∃ k, k ∈ dedupePreserveOrder dbKeys ∧
          env.assignments.lookup k = none ∧
          searchTables env dbKeys q f pm picked =
            Except.error
              (ApiError.notFound ("Database " ++ k ++ " not found")) ∧
          (ApiError.notFound ("Database " ++ k ++ " not found")).status
            = 404) := by
  constructor
  · intro env dbKeys q f pm picked h
    exact ⟨by simp [searchTables, h], rfl⟩
  · intro env dbKeys q f pm picked ⟨k, hk, hmiss⟩
    have hne : (dedupePreserveOrder dbKeys).isEmpty = false := by
      cases hsel : dedupePreserveOrder dbKeys with
      | nil => rw [hsel] at hk; cases hk
      | cons a l => rfl
    have hfind : ((dedupePreserveOrder dbKeys).find?
        (fun k => (env.assignments.lookup k).isNone)).isSome :=
      List.find?_isSome.mpr ⟨k, hk, by simp [hmiss]⟩
    obtain ⟨k0, hk0⟩ := Option.isSome_iff_exists.mp hfind
    have hp := List.find?_some hk0
    have hmem := List.mem_of_find?_eq_some hk0
    refine ⟨k0, hmem, by simpa using hp, ?_, rfl⟩
    simp [searchTables, hne, hk0]

/-- An environment whose assignment map lacks the key db2, used by the
validation witness. -/
def envMissing : Env :=
  { assignments := [("db1", ["t1"])], dbConfig := [], tableMeta := [],
    records := fun _ => [] }

/-- Claim C6 witness: the empty-keys rejection and the unknown-key
rejection obtained from the theorem on concrete inputs. -/
theorem search_tables_validation_witness :
    searchTables envMissing [] none none none none =
      Except.error
        (ApiError.badRequest "At least one database must be provided") ∧
    ∃ k, k ∈ dedupePreserveOrder ["db2"] ∧
      envMissing.assignments.lookup k = none ∧
      searchTables envMissing ["db2"] none none none none =
        Except.error (ApiError.notFound ("Database " ++ k ++ " not found")) ∧
      (ApiError.notFound ("Database " ++ k ++ " not found")).status = 404 :=
  ⟨(search_tables_validation.1 envMissing [] none none none none rfl).1,
   search_tables_validation.2 envMissing ["db2"] none none none none
     ⟨"db2", by decide, by decide⟩⟩

end Wisdom
